import Mathlib

/- Verification of the PyORM mapping engine (src/0_PyORM/main.py): a shallow
embedding of the dynamic values, field descriptors, model classes, the
generated SQL statement texts, and an operational model of the embedded
storage engine the statements run against.  Statement execution is modelled
by a state (database plus the ordered trace of every statement text handed
to Connector.execute); Python exceptions are Option.none results. -/

set_option maxHeartbeats 1000000

namespace PyORM

/-- a single-quote character (code 39), kept out of literals for hygiene -/
def sqc : Char := Char.ofNat 39

/-- a single-quote as a one-character string -/
def sq : String := String.singleton sqc

/-- Python str.startswith with the reserved one-character underscore prefix
(main.py filters every enumeration with it): true exactly when the name opens
with an underscore (character code 95) -/
def startsWithUnderscore (s : String) : Bool :=
  match s.toList with
  | [] => false
  | c :: _ => c == Char.ofNat 95

/-- Python runtime values as the mapping engine sees them: None, bool, int,
str, and model instances.  A model instance carries its identity attribute
(the value of self dot underscore id: None until first saved) and the mapping
from schema field names to assigned values.  Floats only ever pass through
identity conversions in the source and are not needed by any claim, so they
are not represented. -/
inductive PyVal where
  | none : PyVal
  | bool : Bool → PyVal
  | int : Int → PyVal
  | str : String → PyVal
  | obj : PyVal → List (String × PyVal) → PyVal

/-- Python truthiness of a value, as bool(v) computes it -/
def pyTruthy : PyVal → Bool
  | PyVal.none => false
  | PyVal.bool b => b
  | PyVal.int i => i != 0
  | PyVal.str s => s != ""
  | PyVal.obj _ _ => true

/-- Python str(v), as an f-string interpolates a value into statement text.
A model instance has no repr that any claim renders; a fixed placeholder
stands for it. -/
def pyStr : PyVal → String
  | PyVal.none => "None"
  | PyVal.bool true => "True"
  | PyVal.bool false => "False"
  | PyVal.int i => toString i
  | PyVal.str s => s
  | PyVal.obj _ _ => "<Model instance>"

/- Field descriptors and model classes (main.py classes Field, BooleanField,
IntField, FloatField, StringField, ForeignKeyField, and Model subclasses).
A model class is its name (the table name, cls dot dunder name) together with
vars(cls) in declaration order, restricted to the field-descriptor entries;
every non-descriptor class attribute Python adds (dunders) begins with an
underscore and is filtered away by every enumeration exactly as
underscore-named descriptors are, so nothing a claim speaks about depends on
representing them. -/
mutual
/-- the Field descriptor variants of the source -/
inductive Field where
  | BooleanField : Field
  | IntField : Field
  | FloatField : Field
  | StringField : Field
  | ForeignKeyField : ModelClass → Field

/-- a Model subclass: table name and vars(cls) -/
inductive ModelClass where
  | mk : String → List (String × Field) → ModelClass
end

/-- the table name: cls dot dunder name -/
def ModelClass.name : ModelClass → String
  | ModelClass.mk n _ => n

/-- vars(cls) as an ordered association list -/
def ModelClass.decls : ModelClass → List (String × Field)
  | ModelClass.mk _ d => d

/-- sqlite_type_name of each Field variant -/
def sqliteTypeName : Field → String
  | Field.BooleanField => "INTEGER"
  | Field.IntField => "INTEGER"
  | Field.FloatField => "REAL"
  | Field.StringField => "TEXT"
  | Field.ForeignKeyField _ => "INTEGER"

/-- Field.column_declaration: the text field_name blank type_name -/
def columnDeclaration (fieldName : String) (f : Field) : String :=
  fieldName ++ " " ++ sqliteTypeName f

/-- Field.get_post_declaration_constraint: only ForeignKeyField overrides the
default None, emitting the FOREIGN KEY constraint naming the target table and
its rowid column -/
def postDeclarationConstraint (f : Field) (fieldName : String) : Option String :=
  match f with
  | Field.ForeignKeyField other =>
    Option.some ("FOREIGN KEY(" ++ fieldName ++ ") REFERENCES " ++ other.name ++ "(rowid)")
  | _ => Option.none

/-- Field convert (python value to sqlite literal value).  Option.none is a
Python exception at the call: only ForeignKeyField can raise here, by reading
the identity attribute of a value that is not a model instance.  For a model
instance it reads the identity unchecked, even when that identity is still
None (the unpersisted-reference defect the spec notes). -/
def Field.convert : Field → PyVal → Option PyVal
  | Field.BooleanField, v => Option.some (PyVal.int (if pyTruthy v then 1 else 0))
  | Field.IntField, v => Option.some v
  | Field.FloatField, v => Option.some v
  | Field.StringField, v => Option.some (PyVal.str (sq ++ pyStr v ++ sq))
  | Field.ForeignKeyField _, v =>
    match v with
    | PyVal.obj oid _ => Option.some oid
    | _ => Option.none

/-- Field unconvert (sqlite value to python value): BooleanField applies
bool(), every other variant is the inherited identity -/
def Field.unconvert : Field → PyVal → PyVal
  | Field.BooleanField, v => PyVal.bool (pyTruthy v)
  | _, v => v

/-- mapM over Option, written out so that induction proofs unfold it plainly -/
def omap {α β : Type} (f : α → Option β) : List α → Option (List β)
  | [] => Option.some []
  | a :: rest =>
    match f a with
    | Option.none => Option.none
    | Option.some b =>
      match omap f rest with
      | Option.none => Option.none
      | Option.some bs => Option.some (b :: bs)

/-- join a list of pieces with a separator between consecutive pieces: the
shape every statement-building loop of the source produces (append the piece,
then the separator unless the piece is the last) -/
def joinSep (sep : String) : List String → String
  | [] => ""
  | [a] => a
  | a :: b :: rest => a ++ sep ++ joinSep sep (b :: rest)

/-- scan the body of a single-quoted SQL string literal: two consecutive
quotes stand for one literal quote, a lone quote closes the literal; returns
the decoded content and the text after the closing quote, or Option.none for
an unterminated literal -/
def scanLit : List Char → Option (List Char × List Char)
  | [] => Option.none
  | c :: rest =>
    if c = sqc then
      match rest with
      | [] => Option.some ([], [])
      | c2 :: rest2 =>
        if c2 = sqc then
          match scanLit rest2 with
          | Option.none => Option.none
          | Option.some pr => Option.some (sqc :: pr.1, pr.2)
        else Option.some ([], rest)
    else
      match scanLit rest with
      | Option.none => Option.none
      | Option.some pr => Option.some (c :: pr.1, pr.2)

/-- parse a complete SQL single-quoted string literal: an opening quote, a
body, a closing quote, and nothing after it.  Option.some content exactly
when the text is one well-formed literal delimiting content. -/
def sqlLitParse (cs : List Char) : Option (List Char) :=
  match cs with
  | [] => Option.none
  | c :: rest =>
    if c = sqc then
      match scanLit rest with
      | Option.some (content, []) => Option.some content
      | _ => Option.none
    else Option.none

/-- what the storage engine stores for a converted value once it is rendered
into statement text and parsed back as an SQL literal: an int renders as a
decimal integer literal; a str must render as one well-formed quoted string
literal (otherwise the statement is malformed and the engine errors); a bool
renders as the keyword True or False, which sqlite reads as 1 or 0; None and
instances render as tokens the engine rejects -/
def sqlEvalLiteral : PyVal → Option PyVal
  | PyVal.int i => Option.some (PyVal.int i)
  | PyVal.bool b => Option.some (PyVal.int (if b then 1 else 0))
  | PyVal.str s =>
    match sqlLitParse s.toList with
    | Option.some content => Option.some (PyVal.str (String.mk content))
    | Option.none => Option.none
  | _ => Option.none

/-- SQL equality between stored values (stored values are only ints and
strings) -/
def sqlValEq : PyVal → PyVal → Bool
  | PyVal.int a, PyVal.int b => a == b
  | PyVal.str a, PyVal.str b => a == b
  | _, _ => false

/-- one backing table of the embedded store: its column names (the schema
fields, in creation order; the implicit rowid column is kept separately with
each row), the next rowid the engine will assign, and the rows as
(rowid, column values) in insertion order -/
structure Table where
  cols : List String
  nextRowid : Int
  rows : List (Int × List PyVal)

/-- the embedded store: its named tables -/
structure DB where
  tables : List (String × Table)

/-- the state every operation threads: the store, and the trace of every
statement text handed to Connector.execute, in execution order -/
structure EngineState where
  db : DB
  trace : List String

/-- what the sqlite_master probe of Model _table_exists reports -/
def tableExists (db : DB) (name : String) : Bool :=
  (List.lookup name db.tables).isSome

/-- replace the named table's contents in place -/
def replaceTable : List (String × Table) → String → Table → List (String × Table)
  | [], _, _ => []
  | p :: rest, n, t => if p.1 = n then (p.1, t) :: rest else p :: replaceTable rest n t

/-- hand one statement text to Connector.execute: the text joins the trace,
then the engine applies the statement's meaning to the store; Option.none is
a storage-engine error (propagated unchanged to the caller), which still
leaves the statement in the trace since the engine did receive it -/
def runStmt {α : Type} (sql : String) (act : DB → Option (DB × α))
    (s : EngineState) : Option α × EngineState :=
  match act s.db with
  | Option.none => (Option.none, { db := s.db, trace := s.trace ++ [sql] })
  | Option.some (db2, a) => (Option.some a, { db := db2, trace := s.trace ++ [sql] })

/-- engine meaning of CREATE TABLE name (...): a duplicate table or an empty
column list is an error, otherwise an empty table whose rowids start at 1 -/
def dbCreateTable (name : String) (colNames : List String) (db : DB) :
    Option (DB × Unit) :=
  if tableExists db name then Option.none
  else if colNames.isEmpty then Option.none
  else Option.some ({ tables := db.tables ++ [(name, ⟨colNames, 1, []⟩)] }, ())

/-- engine meaning of INSERT INTO name VALUES (...): each rendered value must
read back as a well-formed literal, the value count must match the column
count; the row gets the next rowid, which is also the lastrowid the cursor
reports -/
def dbInsert (name : String) (litVals : List PyVal) (db : DB) :
    Option (DB × Int) :=
  match List.lookup name db.tables with
  | Option.none => Option.none
  | Option.some t =>
    match omap sqlEvalLiteral litVals with
    | Option.none => Option.none
    | Option.some vals =>
      if vals.length == t.cols.length && !vals.isEmpty then
        Option.some
          ({ tables := replaceTable db.tables name
              { t with rows := t.rows ++ [(t.nextRowid, vals)],
                       nextRowid := t.nextRowid + 1 } }, t.nextRowid)
      else Option.none

/-- apply SET assignments (column name, stored value) to one row's values -/
def applyAssigns (cols : List String) (vals : List PyVal)
    (evps : List (String × PyVal)) : List PyVal :=
  evps.foldl
    (fun acc p =>
      match List.findIdx? (fun c => c = p.1) cols with
      | Option.some j => acc.set j p.2
      | Option.none => acc)
    vals

/-- engine meaning of UPDATE name SET c1=v1, ... WHERE rowid=idLit: every
assigned column must exist and every literal must be well-formed; the rowid
comparand must render as an integer literal (None renders as an unknown
identifier and errors); rows whose rowid equals it get all assignments
applied, other rows are untouched, and updating no row is not an error -/
def dbUpdate (name : String) (ps : List (String × PyVal)) (idLit : PyVal)
    (db : DB) : Option (DB × Unit) :=
  match List.lookup name db.tables with
  | Option.none => Option.none
  | Option.some t =>
    match omap (fun p => Option.map (fun e => (p.1, e)) (sqlEvalLiteral p.2)) ps with
    | Option.none => Option.none
    | Option.some evps =>
      if evps.all (fun p => t.cols.contains p.1) then
        match idLit with
        | PyVal.int i =>
          let rows2 := t.rows.map
            (fun r => if r.1 = i then (r.1, applyAssigns t.cols r.2 evps) else r)
          Option.some ({ tables := replaceTable db.tables name { t with rows := rows2 } }, ())
        | _ => Option.none
      else Option.none

/-- engine meaning of DELETE FROM name WHERE rowid=idLit: the rowid comparand
must render as an integer literal; matching rows are removed and removing no
row is not an error -/
def dbDelete (name : String) (idLit : PyVal) (db : DB) : Option (DB × Unit) :=
  match List.lookup name db.tables with
  | Option.none => Option.none
  | Option.some t =>
    match idLit with
    | PyVal.int i =>
      let rows2 := t.rows.filter (fun r => r.1 != i)
      Option.some ({ tables := replaceTable db.tables name { t with rows := rows2 } }, ())
    | _ => Option.none

/-- the stored value of one named column of a row -/
def colValue (cols : List String) (vals : List PyVal) (k : String) : Option PyVal :=
  match List.findIdx? (fun c => c = k) cols with
  | Option.some j => vals.get? j
  | Option.none => Option.none

/-- does a row satisfy every equality condition of a WHERE conjunction -/
def rowMatches (cols : List String) (conds : List (String × PyVal))
    (row : Int × List PyVal) : Bool :=
  conds.all
    (fun c =>
      match colValue cols row.2 c.1 with
      | Option.some v => sqlValEq v c.2
      | Option.none => false)

/-- engine meaning of SELECT rowid, star FROM name WHERE rowid=idLit LIMIT 1
as the reference loader issues it: rows whose rowid equals the comparand -/
def dbSelectRowid (name : String) (idLit : PyVal) (db : DB) :
    Option (DB × List (Int × List PyVal)) :=
  match List.lookup name db.tables with
  | Option.none => Option.none
  | Option.some t =>
    match idLit with
    | PyVal.int i => Option.some (db, t.rows.filter (fun r => r.1 == i))
    | _ => Option.none

/- ---- the Connector entry check (main.py lines 26-32) ---- -/

/-- the Connector class attributes DB_NAME and DB_CONNECTION; the connection
is an abstract handle, Option.none when no connection is active -/
structure ConnectorGlobals where
  dbName : Option String
  dbConnection : Option Nat

/-- Connector.is_connected: DB_CONNECTION is not None -/
def is_connected (g : ConnectorGlobals) : Bool :=
  g.dbConnection.isSome

/-- the truth value the first line of Connector.execute actually tests.  The
source line reads assert cls dot is_connected, without call parentheses (the
sibling disconnnect writes the call): the asserted expression is the bound
classmethod object itself, and a method object is truthy no matter what the
connection state is, so the value is the constant true. -/
def executeAssertExpr (_g : ConnectorGlobals) : Bool :=
  true

/-- the two ways the entry of Connector.execute can raise -/
inductive PyError where
  | assertionError : PyError
  | attributeError : PyError

/-- entry of Connector.execute up to obtaining a cursor: first the assert
statement, then cls.DB_CONNECTION.cursor(), which on an absent connection
dereferences None and raises AttributeError -/
def executeEntry (g : ConnectorGlobals) : Except PyError Nat :=
  if executeAssertExpr g = false then Except.error PyError.assertionError
  else
    match g.dbConnection with
    | Option.none => Except.error PyError.attributeError
    | Option.some h => Except.ok h

/- ---- field enumerations (the schema order contract) ---- -/

/-- the enumeration Model._create_table performs when collecting column
declarations (main.py lines 167-171): vars(cls) in order, names that start
with an underscore skipped -/
def createTableFields : List (String × Field) → List (String × Field)
  | [] => []
  | p :: rest =>
    if startsWithUnderscore p.1 then createTableFields rest else p :: createTableFields rest

/-- the enumeration Model.save performs over vars(type(self)) in both of its
branches (main.py lines 197-199 and 214-216): same order, same skip rule -/
def saveFields : List (String × Field) → List (String × Field)
  | [] => []
  | p :: rest =>
    if startsWithUnderscore p.1 then saveFields rest else p :: saveFields rest

/-- the enumeration Model.init_from_db_tuple performs when assigning decoded
values (main.py lines 132-140): same order, same skip rule -/
def decodeFields : List (String × Field) → List (String × Field)
  | [] => []
  | p :: rest =>
    if startsWithUnderscore p.1 then decodeFields rest else p :: decodeFields rest

/- ---- statement texts ---- -/

/-- the sqlite_master probe text of Model._table_exists -/
def tableExistsSql (name : String) : String :=
  "SELECT count(name) FROM sqlite_master WHERE type=" ++ sq ++ "table" ++ sq
    ++ " AND name=" ++ sq ++ name ++ sq

/-- the constraint lines of Model._create_table's second loop (main.py lines
173-177): non-underscore fields whose post-declaration constraint is not None -/
def postConstraints : List (String × Field) → List String
  | [] => []
  | p :: rest =>
    if startsWithUnderscore p.1 then postConstraints rest
    else
      match postDeclarationConstraint p.2 p.1 with
      | Option.some c => c :: postConstraints rest
      | Option.none => postConstraints rest

/-- the CREATE TABLE text Model._create_table assembles -/
def createTableSql (cls : ModelClass) : String :=
  let columns := (createTableFields cls.decls).map (fun p => columnDeclaration p.1 p.2)
  "CREATE TABLE " ++ cls.name ++ " ("
    ++ joinSep ", " (columns ++ postConstraints cls.decls) ++ ")"

/- ---- Model._table_exists / _create_table / _ensure_table_exists ---- -/

/-- Model._table_exists: execute the probe, report whether the table exists -/
def tableExistsOp (cls : ModelClass) (s : EngineState) : Option Bool × EngineState :=
  runStmt (tableExistsSql cls.name) (fun db => Option.some (db, tableExists db cls.name)) s

mutual
/-- Model._create_table: one pass over vars(cls) that both ensures every
ForeignKeyField target table exists (recursively: this is done before the
underscore filter is consulted, for every declared attribute) and collects
the column declarations; then the constraint loop; then one CREATE TABLE
statement is executed -/
def createTableOp : ModelClass → EngineState → Option Unit × EngineState
  | ModelClass.mk nm decls, s =>
    match collectColsEnsuring decls s with
    | (Option.none, s1) => (Option.none, s1)
    | (Option.some columns, s1) =>
      let sql := "CREATE TABLE " ++ nm ++ " ("
        ++ joinSep ", " (columns ++ postConstraints decls) ++ ")"
      runStmt sql (dbCreateTable nm ((createTableFields decls).map Prod.fst)) s1
termination_by cls _ => 2 * sizeOf cls + 2
decreasing_by all_goals (simp_wf; try omega)

/-- the first loop of Model._create_table (main.py lines 167-171): for each
declared attribute, if it is a ForeignKeyField first ensure the target table
exists, and if its name does not start with an underscore append its column
declaration -/
def collectColsEnsuring : List (String × Field) → EngineState → Option (List String) × EngineState
  | [], s => (Option.some [], s)
  | (n, f) :: rest, s =>
    match ensureStep f s with
    | (Option.none, s1) => (Option.none, s1)
    | (Option.some _, s1) =>
      match collectColsEnsuring rest s1 with
      | (Option.none, s2) => (Option.none, s2)
      | (Option.some cs, s2) =>
        if startsWithUnderscore n then (Option.some cs, s2)
        else (Option.some (columnDeclaration n f :: cs), s2)
termination_by decls _ => 2 * sizeOf decls + 3
decreasing_by all_goals (simp_wf; try omega)

/-- the isinstance(field, ForeignKeyField) arm: ensure the target's table -/
def ensureStep : Field → EngineState → Option Unit × EngineState
  | Field.ForeignKeyField other, s => ensureTableExistsOp other s
  | _, s => (Option.some (), s)
termination_by f _ => 2 * sizeOf f + 2
decreasing_by all_goals (simp_wf; try omega)

/-- Model._ensure_table_exists: probe, then create when absent -/
def ensureTableExistsOp (cls : ModelClass) (s : EngineState) : Option Unit × EngineState :=
  match tableExistsOp cls s with
  | (Option.none, s1) => (Option.none, s1)
  | (Option.some b, s1) => if b then (Option.some (), s1) else createTableOp cls s1
termination_by 2 * sizeOf cls + 3
decreasing_by all_goals (simp_wf; try omega)
end

/- ---- Model.init_from_db_tuple / load_fk_field (row decoding) ---- -/

mutual
/-- Model.init_from_db_tuple: unpack the tuple as rowid and the rest (an
empty tuple cannot be unpacked and raises), decode the values against the
field enumeration, set the identity attribute to the leading element -/
def initFromDbTuple : ModelClass → EngineState → List PyVal → Option PyVal × EngineState
  | ModelClass.mk _ decls, s, tup =>
    match tup with
    | [] => (Option.none, s)
    | rowid :: vals =>
      match decodeLoop decls s vals with
      | (Option.none, s1) => (Option.none, s1)
      | (Option.some fs, s1) => (Option.some (PyVal.obj rowid fs), s1)
termination_by cls _ _ => 2 * sizeOf cls + 2
decreasing_by all_goals (simp_wf; try omega)

/-- the decoding loop of init_from_db_tuple (main.py lines 132-140): walk
vars(cls) in order; an underscore-prefixed name is skipped without advancing
the value index; a ForeignKeyField consumes the positional raw value as the
target identity and loads the referenced instance; any other field consumes
the positional value through unconvert.  Running out of positional values is
an IndexError. -/
def decodeLoop (decls : List (String × Field)) (s : EngineState) (vals : List PyVal) :
    Option (List (String × PyVal)) × EngineState :=
  match decls with
  | [] => (Option.some [], s)
  | (n, f) :: rest =>
    if startsWithUnderscore n then decodeLoop rest s vals
    else
      match vals with
      | [] => (Option.none, s)
      | v :: vrest =>
        match f with
        | Field.ForeignKeyField other =>
          match loadFkFieldOp other v s with
          | (Option.none, s1) => (Option.none, s1)
          | (Option.some loaded, s1) =>
            match decodeLoop rest s1 vrest with
            | (Option.none, s2) => (Option.none, s2)
            | (Option.some fs, s2) => (Option.some ((n, loaded) :: fs), s2)
        | _ =>
          match decodeLoop rest s vrest with
          | (Option.none, s2) => (Option.none, s2)
          | (Option.some fs, s2) => (Option.some ((n, f.unconvert v) :: fs), s2)
termination_by 2 * sizeOf decls + 3
decreasing_by all_goals (simp_wf; try omega)

/-- Model.load_fk_field: execute the single-row selection against the target
table with the stored identity as the rowid comparand, fetch the first row
(fetchone returning None makes the recursive unpacking raise), and decode it
recursively into one target instance -/
def loadFkFieldOp (other : ModelClass) (otherId : PyVal) (s : EngineState) :
    Option PyVal × EngineState :=
  let sql := "SELECT rowid, * FROM " ++ other.name ++ " WHERE rowid="
    ++ pyStr otherId ++ " LIMIT 1"
  match runStmt sql (dbSelectRowid other.name otherId) s with
  | (Option.none, s1) => (Option.none, s1)
  | (Option.some rows, s1) =>
    match rows.head? with
    | Option.none => (Option.none, s1)
    | Option.some row => initFromDbTuple other s1 (PyVal.int row.1 :: row.2)
termination_by 2 * sizeOf other + 3
decreasing_by all_goals (simp_wf; try omega)
end

/- ---- Model.save / Model.delete ---- -/

/-- the value-collection loop of the insert branch of Model.save (main.py
lines 197-199): for each non-underscore declared field, read the instance
attribute (a missing attribute is a KeyError on vars(self)) and convert it -/
def insertValues : List (String × Field) → List (String × PyVal) → Option (List PyVal)
  | [], _ => Option.some []
  | (n, f) :: rest, selfVars =>
    if startsWithUnderscore n then insertValues rest selfVars
    else
      match List.lookup n selfVars with
      | Option.none => Option.none
      | Option.some v =>
        match f.convert v with
        | Option.none => Option.none
        | Option.some cv =>
          match insertValues rest selfVars with
          | Option.none => Option.none
          | Option.some cvs => Option.some (cv :: cvs)

/-- the assignment-collection loop of the update branch of Model.save
(main.py lines 214-216): the same enumeration and conversion, kept as
(field name, converted value) pairs; the statement text renders each pair as
name=value -/
def updatePairs : List (String × Field) → List (String × PyVal) → Option (List (String × PyVal))
  | [], _ => Option.some []
  | (n, f) :: rest, selfVars =>
    if startsWithUnderscore n then updatePairs rest selfVars
    else
      match List.lookup n selfVars with
      | Option.none => Option.none
      | Option.some v =>
        match f.convert v with
        | Option.none => Option.none
        | Option.some cv =>
          match updatePairs rest selfVars with
          | Option.none => Option.none
          | Option.some ps => Option.some ((n, cv) :: ps)

/-- the INSERT statement text of the insert branch: VALUES list of the
rendered converted values joined with comma-blank, identity omitted -/
def insertSqlText (name : String) (cvs : List PyVal) : String :=
  "INSERT INTO " ++ name ++ " VALUES (" ++ joinSep ", " (cvs.map pyStr) ++ ")"

/-- the UPDATE statement text of the update branch: SET list of
name=rendered-value joined with comma-blank, then the rowid predicate
rendering the identity attribute -/
def updateSqlText (name : String) (ps : List (String × PyVal)) (selfId : PyVal) : String :=
  "UPDATE " ++ name ++ " SET " ++ joinSep ", " (ps.map (fun p => p.1 ++ "=" ++ pyStr p.2))
    ++ " WHERE rowid=" ++ pyStr selfId

/-- Model.save: ensure the table exists; when the identity attribute is None
take the insert branch (collect converted values, execute INSERT, set the
identity to the cursor's lastrowid); otherwise take the update branch
(execute UPDATE of every field, the identity untouched).  The returned value
is the identity attribute after a normal return; Option.none is a raised
exception. -/
def saveOp (cls : ModelClass) (selfId : PyVal) (selfVars : List (String × PyVal))
    (s : EngineState) : Option PyVal × EngineState :=
  match ensureTableExistsOp cls s with
  | (Option.none, s1) => (Option.none, s1)
  | (Option.some _, s1) =>
    match selfId with
    | PyVal.none =>
      match insertValues cls.decls selfVars with
      | Option.none => (Option.none, s1)
      | Option.some cvs =>
        match runStmt (insertSqlText cls.name cvs) (dbInsert cls.name cvs) s1 with
        | (Option.none, s2) => (Option.none, s2)
        | (Option.some rid, s2) => (Option.some (PyVal.int rid), s2)
    | _ =>
      match updatePairs cls.decls selfVars with
      | Option.none => (Option.none, s1)
      | Option.some ps =>
        match runStmt (updateSqlText cls.name ps selfId) (dbUpdate cls.name ps selfId) s1 with
        | (Option.none, s2) => (Option.none, s2)
        | (Option.some _, s2) => (Option.some selfId, s2)

/-- the DELETE statement text of Model.delete, rendering the identity
attribute whatever it is (None renders as the token None) -/
def deleteSqlText (name : String) (selfId : PyVal) : String :=
  "DELETE FROM " ++ name ++ " WHERE rowid=" ++ pyStr selfId

/-- Model.delete: ensure the table exists, then synthesize and execute the
DELETE statement.  The identity attribute is neither checked nor assigned
anywhere in the method, so the returned identity after a normal return is
the argument unchanged. -/
def deleteOp (cls : ModelClass) (selfId : PyVal) (s : EngineState) :
    Option PyVal × EngineState :=
  match ensureTableExistsOp cls s with
  | (Option.none, s1) => (Option.none, s1)
  | (Option.some _, s1) =>
    match runStmt (deleteSqlText cls.name selfId) (dbDelete cls.name selfId) s1 with
    | (Option.none, s2) => (Option.none, s2)
    | (Option.some _, s2) => (Option.some selfId, s2)

/- ---- QuerySet ---- -/

/-- the WHERE-clause loop of QuerySet.get_query_string (main.py lines
271-277): for each filter key in iteration order, look the key up in
vars(model_cls) (a missing key raises KeyError), convert the filter value
with that field, append key=value-blank, and append AND-blank unless the key
is the last -/
def filterClauses (cls : ModelClass) : List (String × PyVal) → Option String
  | [] => Option.some ""
  | (k, v) :: rest =>
    match List.lookup k cls.decls with
    | Option.none => Option.none
    | Option.some f =>
      match f.convert v with
      | Option.none => Option.none
      | Option.some cv =>
        match filterClauses cls rest with
        | Option.none => Option.none
        | Option.some tail =>
          Option.some (k ++ "=" ++ pyStr cv ++ " "
            ++ (if rest.isEmpty then "" else "AND ") ++ tail)

/-- QuerySet.get_query_string: the base selection, plus blank-WHERE-blank and
the clauses when the filter mapping is non-empty -/
def getQueryString (cls : ModelClass) (filters : List (String × PyVal)) : Option String :=
  match filterClauses cls filters with
  | Option.none => Option.none
  | Option.some cl =>
    Option.some ("SELECT rowid, * FROM " ++ cls.name
      ++ (if filters.isEmpty then "" else " WHERE " ++ cl))

/-- a QuerySet: the model class, the filter mapping, and the snapshot of
matching rows fetched at construction -/
structure QuerySet where
  model_cls : ModelClass
  filter_kwargs : List (String × PyVal)
  items : List (Int × List PyVal)

/-- one filter pairing as the statement synthesis renders it: the key looked
up in vars(model_cls) and the filter value converted by that field, kept as
(key, converted value) -/
def convFilter (cls : ModelClass) (p : String × PyVal) : Option (String × PyVal) :=
  match List.lookup p.1 cls.decls with
  | Option.none => Option.none
  | Option.some f => Option.map (fun c => (p.1, c)) (f.convert p.2)

/-- the clause text one filter pairing contributes to the WHERE conjunction:
key, equals sign, rendered converted value, trailing blank -/
def filterClauseText (p : String × PyVal) : String :=
  p.1 ++ "=" ++ pyStr p.2 ++ " "

/-- engine meaning of the synthesized selection: every filter column must
exist on the table and every rendered literal must be well-formed (the
conditions are re-derived from the same lookups and conversions the string
synthesis performed, then evaluated as literals); the matching rows are
returned with their rowids and the store is unchanged -/
def dbSelectFiltered (cls : ModelClass) (filters : List (String × PyVal)) (db : DB) :
    Option (DB × List (Int × List PyVal)) :=
  match List.lookup cls.name db.tables with
  | Option.none => Option.none
  | Option.some t =>
    match omap (fun p => Option.bind (convFilter cls p)
        (fun q => Option.map (fun e => (q.1, e)) (sqlEvalLiteral q.2))) filters with
    | Option.none => Option.none
    | Option.some conds =>
      if conds.all (fun c => t.cols.contains c.1) then
        Option.some (db, t.rows.filter (rowMatches t.cols conds))
      else Option.none

/-- QuerySet dunder init: synthesize the query string (a failure there is a
Python exception raised before any statement reaches the engine), execute it
at construction time, and snapshot all matching rows with fetchall -/
def qsInitOp (cls : ModelClass) (filters : List (String × PyVal)) (s : EngineState) :
    Option QuerySet × EngineState :=
  match getQueryString cls filters with
  | Option.none => (Option.none, s)
  | Option.some q =>
    match runStmt q (dbSelectFiltered cls filters) s with
    | (Option.none, s1) => (Option.none, s1)
    | (Option.some rows, s1) => (Option.some ⟨cls, filters, rows⟩, s1)

/-- QuerySet.count: the size of the snapshot -/
def qsCount (qs : QuerySet) : Nat :=
  qs.items.length

/-- Python list indexing with an int subscript: a subscript in 0 up to the
length selects directly, a negative subscript from minus the length selects
from the end, anything else is an IndexError -/
def pythonIndex (k : Int) (n : Nat) : Option Nat :=
  if 0 ≤ k ∧ k < (n : Int) then Option.some k.toNat
  else if -(n : Int) ≤ k ∧ k < 0 then Option.some ((n : Int) + k).toNat
  else Option.none

/-- QuerySet dunder getitem: index the snapshot with Python list indexing
(an out-of-bounds subscript raises IndexError before anything executes) and
decode the selected row -/
def qsGetItem (qs : QuerySet) (k : Int) (s : EngineState) : Option PyVal × EngineState :=
  match pythonIndex k qs.items.length with
  | Option.none => (Option.none, s)
  | Option.some j =>
    match qs.items.get? j with
    | Option.none => (Option.none, s)
    | Option.some row => initFromDbTuple qs.model_cls s (PyVal.int row.1 :: row.2)

/- ==================== shared lemmas ==================== -/

theorem createTableFields_eq_saveFields (decls : List (String × Field)) :
    createTableFields decls = saveFields decls := by
  induction decls with
  | nil => rfl
  | cons p rest ih =>
    by_cases h : startsWithUnderscore p.1 <;> simp [createTableFields, saveFields, h, ih]

theorem decodeFields_eq_saveFields (decls : List (String × Field)) :
    decodeFields decls = saveFields decls := by
  induction decls with
  | nil => rfl
  | cons p rest ih =>
    by_cases h : startsWithUnderscore p.1 <;> simp [decodeFields, saveFields, h, ih]

theorem saveFields_eq_filter (decls : List (String × Field)) :
    saveFields decls = decls.filter (fun p => !(startsWithUnderscore p.1)) := by
  induction decls with
  | nil => rfl
  | cons p rest ih =>
    by_cases h : startsWithUnderscore p.1 <;> simp [saveFields, List.filter_cons, h, ih]

theorem insertValues_eq_omap (decls : List (String × Field)) (selfVars : List (String × PyVal)) :
    insertValues decls selfVars
      = omap (fun p => Option.bind (List.lookup p.1 selfVars) p.2.convert) (saveFields decls) := by
  induction decls with
  | nil => rfl
  | cons p rest ih =>
    obtain ⟨n, f⟩ := p
    by_cases h : startsWithUnderscore n
    · simp [insertValues, saveFields, h, ih]
    · simp only [insertValues, saveFields, h, Bool.false_eq_true, ite_false, omap]
      cases List.lookup n selfVars with
      | none => simp [omap]
      | some v =>
        simp only [Option.some_bind]
        cases hc : f.convert v with
        | none => simp [omap, hc]
        | some cv =>
          rw [← ih]
          cases insertValues rest selfVars <;> rfl

theorem updatePairs_eq_omap (decls : List (String × Field)) (selfVars : List (String × PyVal)) :
    updatePairs decls selfVars
      = omap (fun p => Option.map (fun cv => (p.1, cv))
          (Option.bind (List.lookup p.1 selfVars) p.2.convert)) (saveFields decls) := by
  induction decls with
  | nil => rfl
  | cons p rest ih =>
    obtain ⟨n, f⟩ := p
    by_cases h : startsWithUnderscore n
    · simp [updatePairs, saveFields, h, ih]
    · simp only [updatePairs, saveFields, h, Bool.false_eq_true, ite_false, omap]
      cases List.lookup n selfVars with
      | none => simp [omap]
      | some v =>
        simp only [Option.some_bind]
        cases hc : f.convert v with
        | none => simp [omap, hc]
        | some cv =>
          rw [← ih]
          cases updatePairs rest selfVars <;> rfl

theorem collectColsEnsuring_cols (decls : List (String × Field)) (s : EngineState) :
    (collectColsEnsuring decls s).1 = Option.none
    ∨ (collectColsEnsuring decls s).1
        = Option.some ((createTableFields decls).map (fun p => columnDeclaration p.1 p.2)) := by
  induction decls generalizing s with
  | nil => right; simp [collectColsEnsuring, createTableFields]
  | cons p rest ih =>
    obtain ⟨n, f⟩ := p
    simp only [collectColsEnsuring]
    split
    · left; rfl
    · rename_i u s1 heq
      split
      · left; rfl
      · rename_i cs s2 heq2
        have h2 := ih s1
        rw [heq2] at h2
        have h3 : cs = (createTableFields rest).map (fun p => columnDeclaration p.1 p.2) := by
          rcases h2 with h2 | h2
          · simp at h2
          · simpa using h2
        subst h3
        right
        by_cases h : startsWithUnderscore n <;> simp [createTableFields, h]

theorem decodeLoop_names (decls : List (String × Field)) (s : EngineState) (vals : List PyVal) :
    (decodeLoop decls s vals).1 = Option.none
    ∨ ∃ fs, (decodeLoop decls s vals).1 = Option.some fs
        ∧ fs.map Prod.fst = (decodeFields decls).map Prod.fst := by
  induction decls generalizing s vals with
  | nil => right; exact ⟨[], by simp [decodeLoop], rfl⟩
  | cons p rest ih =>
    obtain ⟨n, f⟩ := p
    rw [decodeLoop.eq_def]
    by_cases h : startsWithUnderscore n
    · simpa [h, decodeFields] using ih s vals
    · simp only [h, Bool.false_eq_true, ite_false]
      split
      · left; rfl
      · rename_i v vrest
        split
        · rename_i other
          split
          · left; rfl
          · rename_i loaded s1 heq
            split
            · left; rfl
            · rename_i fs s2 heq2
              have h2 := ih s1 vrest
              rw [heq2] at h2
              have h3 : fs.map Prod.fst = (decodeFields rest).map Prod.fst := by
                rcases h2 with h2a | ⟨fs2, h2a, h3⟩
                · simp at h2a
                · simp at h2a; subst h2a; exact h3
              right
              exact ⟨(n, loaded) :: fs, rfl, by simp [decodeFields, h, h3]⟩
        · split
          · left; rfl
          · rename_i fs s2 heq2
            have h2 := ih s vrest
            rw [heq2] at h2
            have h3 : fs.map Prod.fst = (decodeFields rest).map Prod.fst := by
              rcases h2 with h2a | ⟨fs2, h2a, h3⟩
              · simp at h2a
              · simp at h2a; subst h2a; exact h3
            right
            exact ⟨_, rfl, by simp [decodeFields, h, h3]⟩

theorem scanLit_no_quote (cs : List Char) (h : ∀ c ∈ cs, c ≠ sqc) :
    scanLit (cs ++ [sqc]) = Option.some (cs, []) := by
  induction cs with
  | nil => simp [scanLit]
  | cons c rest ih =>
    have hc : c ≠ sqc := h c (by simp)
    have ih2 := ih (fun x hx => h x (by simp [hx]))
    rw [List.cons_append, scanLit.eq_def]
    simp only [hc, ite_false, Bool.false_eq_true, if_false]
    rw [ih2]

theorem sqlLitParse_quoted (v : List Char) (h : ∀ c ∈ v, c ≠ sqc) :
    sqlLitParse (sqc :: (v ++ [sqc])) = Option.some v := by
  simp [sqlLitParse, scanLit_no_quote v h]

theorem omap_cons_some {α β : Type} (g : α → Option β) (a : α) (rest : List α)
    (bs : List β) (h : omap g (a :: rest) = Option.some bs) :
    ∃ b bs2, g a = Option.some b ∧ omap g rest = Option.some bs2 ∧ bs = b :: bs2 := by
  rw [omap] at h
  rcases hga : g a with _ | b
  · simp [hga] at h
  · rcases hrest : omap g rest with _ | bs2
    · simp [hga, hrest] at h
    · simp only [hga, hrest] at h
      exact ⟨b, bs2, rfl, rfl, (Option.some.inj h).symm⟩

theorem omap_bind_fusion {α β γ : Type} (g : α → Option β) (h : β → Option γ) :
    ∀ (l : List α) (bs : List β), omap g l = Option.some bs →
      omap (fun a => Option.bind (g a) h) l = omap h bs := by
  intro l
  induction l with
  | nil =>
    intro bs hg
    simp [omap] at hg
    subst hg
    rfl
  | cons a rest ih =>
    intro bs hg
    obtain ⟨b, bs2, hga, hrest, rfl⟩ := omap_cons_some g a rest bs hg
    have ih2 := ih bs2 hrest
    rw [omap, omap, hga, Option.some_bind, ih2]

theorem omap_length {α β : Type} (g : α → Option β) :
    ∀ (l : List α) (bs : List β), omap g l = Option.some bs → bs.length = l.length := by
  intro l
  induction l with
  | nil => intro bs h; simp [omap] at h; subst h; rfl
  | cons a rest ih =>
    intro bs h
    obtain ⟨b, bs2, _, hrest, rfl⟩ := omap_cons_some _ _ _ _ h
    simp [ih bs2 hrest]

theorem joinSep_cons (sep a : String) (rest : List String) :
    joinSep sep (a :: rest)
      = a ++ (if rest.isEmpty then "" else sep ++ joinSep sep rest) := by
  cases rest <;> simp [joinSep, String.append_assoc]

theorem filterClauses_cons (cls : ModelClass) (k : String) (v : PyVal) (f : Field)
    (cv : PyVal) (rest : List (String × PyVal)) (tail : String)
    (hlk : List.lookup k cls.decls = Option.some f)
    (hcf : f.convert v = Option.some cv)
    (htail : filterClauses cls rest = Option.some tail) :
    filterClauses cls ((k, v) :: rest)
      = Option.some (k ++ "=" ++ pyStr cv ++ " "
          ++ (if rest.isEmpty then "" else "AND ") ++ tail) := by
  simp [filterClauses, hlk, hcf, htail]

theorem filterClauses_some (cls : ModelClass) :
    ∀ (filters cvs : List (String × PyVal)),
      omap (convFilter cls) filters = Option.some cvs →
      filterClauses cls filters
        = Option.some (joinSep "AND " (cvs.map filterClauseText)) := by
  intro filters
  induction filters with
  | nil =>
    intro cvs hcv
    simp [omap] at hcv
    subst hcv
    rfl
  | cons p rest ih =>
    intro cvs hcv
    obtain ⟨k, v⟩ := p
    obtain ⟨q, cvs2, hq, hrest, rfl⟩ := omap_cons_some _ _ _ _ hcv
    rcases hlk : List.lookup k cls.decls with _ | f
    · simp [convFilter, hlk] at hq
    · simp only [convFilter, hlk] at hq
      rcases hcf : f.convert v with _ | cv
      · simp [hcf] at hq
      · simp [hcf] at hq
        subst hq
        have ih2 := ih cvs2 hrest
        rw [filterClauses_cons cls k v f cv rest _ hlk hcf ih2, List.map_cons, joinSep_cons]
        have hlen := omap_length (convFilter cls) rest cvs2 hrest
        have hie : (cvs2.map filterClauseText).isEmpty = rest.isEmpty := by
          cases rest <;> cases cvs2 <;> simp_all
        rw [hie]
        cases he : rest.isEmpty
        · have hs : ∀ t : String, " " ++ ("AND " ++ t) = " AND " ++ t := by
            intro t
            rw [← String.append_assoc]
            rfl
          simp [filterClauseText, String.append_assoc, hs]
        · have hc0 : cvs2 = [] := by
            cases rest <;> cases cvs2 <;> simp_all
          subst hc0
          simp [filterClauseText, joinSep]

theorem filterClauses_none (cls : ModelClass) :
    ∀ (filters : List (String × PyVal)) (k : String) (v : PyVal),
      (k, v) ∈ filters → List.lookup k cls.decls = Option.none →
      filterClauses cls filters = Option.none := by
  intro filters
  induction filters with
  | nil => intro k v hmem _; simp at hmem
  | cons p rest ih =>
    intro k v hmem hlk
    obtain ⟨k2, v2⟩ := p
    rcases List.mem_cons.mp hmem with heq | hmem2
    · injection heq with h1 h2
      subst h1
      simp [filterClauses, hlk]
    · have htail := ih k v hmem2 hlk
      rcases hk2 : List.lookup k2 cls.decls with _ | f
      · simp [filterClauses, hk2]
      · rcases hc2 : f.convert v2 with _ | cv
        · simp [filterClauses, hk2, hc2]
        · simp [filterClauses, hk2, hc2, htail]


theorem ensureTableExists_of_exists (cls : ModelClass) (s : EngineState) (t : Table)
    (ht : List.lookup cls.name s.db.tables = Option.some t) :
    ensureTableExistsOp cls s
      = (Option.some (), ⟨s.db, s.trace ++ [tableExistsSql cls.name]⟩) := by
  have hex : tableExists s.db cls.name = true := by simp [tableExists, ht]
  simp [ensureTableExistsOp, tableExistsOp, runStmt, hex]

theorem saveOp_update_spec (cls : ModelClass) (selfVars : List (String × PyVal))
    (s : EngineState) (t : Table) (ps evps : List (String × PyVal)) (i : Int)
    (ht : List.lookup cls.name s.db.tables = Option.some t)
    (hp : updatePairs cls.decls selfVars = Option.some ps)
    (hpev : omap (fun p => Option.map (fun e => (p.1, e)) (sqlEvalLiteral p.2)) ps
        = Option.some evps)
    (hcols : evps.all (fun p => t.cols.contains p.1) = true) :
    saveOp cls (PyVal.int i) selfVars s
      = (Option.some (PyVal.int i),
         ⟨⟨replaceTable s.db.tables cls.name
             { t with rows := t.rows.map (fun r =>
                 if r.1 = i then (r.1, applyAssigns t.cols r.2 evps) else r) }⟩,
          s.trace ++ [tableExistsSql cls.name, updateSqlText cls.name ps (PyVal.int i)]⟩) := by
  have hens := ensureTableExists_of_exists cls s t ht
  have hupd : dbUpdate cls.name ps (PyVal.int i) s.db
      = Option.some (⟨replaceTable s.db.tables cls.name
          { t with rows := t.rows.map (fun r =>
              if r.1 = i then (r.1, applyAssigns t.cols r.2 evps) else r) }⟩, ()) := by
    simp only [dbUpdate, ht, hpev, hcols, if_true]
  simp [saveOp, hens, hp, runStmt, hupd]

theorem saveOp_insert_spec (cls : ModelClass) (selfVars : List (String × PyVal))
    (s : EngineState) (t : Table) (cvs evs : List PyVal)
    (ht : List.lookup cls.name s.db.tables = Option.some t)
    (hv : insertValues cls.decls selfVars = Option.some cvs)
    (hev : omap sqlEvalLiteral cvs = Option.some evs)
    (hlen : (evs.length == t.cols.length && !evs.isEmpty) = true) :
    saveOp cls PyVal.none selfVars s
      = (Option.some (PyVal.int t.nextRowid),
         ⟨⟨replaceTable s.db.tables cls.name
             { t with rows := t.rows ++ [(t.nextRowid, evs)],
                      nextRowid := t.nextRowid + 1 }⟩,
          s.trace ++ [tableExistsSql cls.name, insertSqlText cls.name cvs]⟩) := by
  have hens := ensureTableExists_of_exists cls s t ht
  have hins : dbInsert cls.name cvs s.db
      = Option.some (⟨replaceTable s.db.tables cls.name
          { t with rows := t.rows ++ [(t.nextRowid, evs)],
                   nextRowid := t.nextRowid + 1 }⟩, t.nextRowid) := by
    simp only [dbInsert, ht, hev, hlen, if_true]
  simp [saveOp, hens, hv, runStmt, hins]

theorem deleteOp_int_spec (cls : ModelClass) (s : EngineState) (t : Table) (i : Int)
    (ht : List.lookup cls.name s.db.tables = Option.some t) :
    deleteOp cls (PyVal.int i) s
      = (Option.some (PyVal.int i),
         ⟨⟨replaceTable s.db.tables cls.name
             { t with rows := t.rows.filter (fun r => r.1 != i) }⟩,
          s.trace ++ [tableExistsSql cls.name, deleteSqlText cls.name (PyVal.int i)]⟩) := by
  have hens := ensureTableExists_of_exists cls s t ht
  have hdel : dbDelete cls.name (PyVal.int i) s.db
      = Option.some (⟨replaceTable s.db.tables cls.name
          { t with rows := t.rows.filter (fun r => r.1 != i) }⟩, ()) := by
    simp only [dbDelete, ht]
  simp [deleteOp, hens, runStmt, hdel]

theorem deleteOp_none_spec (cls : ModelClass) (s : EngineState) (t : Table)
    (ht : List.lookup cls.name s.db.tables = Option.some t) :
    deleteOp cls PyVal.none s
      = (Option.none,
         ⟨s.db, s.trace ++ [tableExistsSql cls.name, deleteSqlText cls.name PyVal.none]⟩) := by
  have hens := ensureTableExists_of_exists cls s t ht
  have hdel : dbDelete cls.name PyVal.none s.db = Option.none := by
    simp [dbDelete, ht]
  simp [deleteOp, hens, runStmt, hdel]

theorem lookup_replaceTable_ne (tabs : List (String × Table)) (n tn : String) (t2 : Table)
    (h : tn ≠ n) :
    List.lookup tn (replaceTable tabs n t2) = List.lookup tn tabs := by
  induction tabs with
  | nil => rfl
  | cons p rest ih =>
    by_cases hp : p.1 = n
    · subst hp
      have hb : (tn == p.1) = false := by
        rw [beq_eq_false_iff_ne]
        exact h
      simp [replaceTable, List.lookup, hb]
    · simp [replaceTable, hp, List.lookup, ih]

theorem lookup_replaceTable_self (tabs : List (String × Table)) (n : String) (t t2 : Table)
    (h : List.lookup n tabs = Option.some t) :
    List.lookup n (replaceTable tabs n t2) = Option.some t2 := by
  induction tabs with
  | nil => simp [List.lookup] at h
  | cons p rest ih =>
    by_cases hp : p.1 = n
    · subst hp
      simp [replaceTable, List.lookup]
    · have hb : (n == p.1) = false := by
        rw [beq_eq_false_iff_ne]
        exact fun he => hp he.symm
      have h2 : List.lookup n rest = Option.some t := by
        simpa [List.lookup, hb] using h
      simp [replaceTable, hp, List.lookup, hb, ih h2]

theorem mem_update_rows (rows : List (Int × List PyVal)) (i : Int)
    (g : List PyVal → List PyVal) (rid : Int) (vs : List PyVal) (h : rid ≠ i) :
    ((rid, vs) ∈ rows.map (fun r => if r.1 = i then (r.1, g r.2) else r))
      ↔ (rid, vs) ∈ rows := by
  rw [List.mem_map]
  constructor
  · rintro ⟨r, hr, hf⟩
    by_cases hri : r.1 = i
    · rw [if_pos hri] at hf
      exfalso
      have h1 : r.1 = rid := congrArg Prod.fst hf
      omega
    · rw [if_neg hri] at hf
      rw [← hf]
      exact hr
  · intro hr
    refine ⟨(rid, vs), hr, ?_⟩
    rw [if_neg]
    exact h

theorem no_deleted_row_after_update (rows : List (Int × List PyVal)) (i : Int)
    (g : List PyVal → List PyVal) (vs : List PyVal) :
    ¬ (i, vs) ∈ (rows.filter (fun r => r.1 != i)).map
        (fun r => if r.1 = i then (r.1, g r.2) else r) := by
  intro hmem
  rw [List.mem_map] at hmem
  obtain ⟨r, hr, hf⟩ := hmem
  rw [List.mem_filter] at hr
  obtain ⟨_, hne⟩ := hr
  by_cases hri : r.1 = i
  · simp [hri] at hne
  · rw [if_neg hri] at hf
    apply hri
    rw [hf]

theorem omap_keyed_fst {α β : Type} (g : (String × α) → Option β) :
    ∀ (l : List (String × α)) (r : List (String × β)),
      omap (fun p => Option.map (fun b => (p.1, b)) (g p)) l = Option.some r →
      r.map Prod.fst = l.map Prod.fst := by
  intro l
  induction l with
  | nil => intro r h; simp [omap] at h; subst h; rfl
  | cons a rest ih =>
    intro r h
    obtain ⟨b, bs2, hga, hrest, rfl⟩ := omap_cons_some _ _ _ _ h
    rcases hg : g a with _ | b2
    · simp [hg] at hga
    · simp [hg] at hga
      subst hga
      simp [ih bs2 hrest]

/- ==================== the claims ==================== -/

/-- C1: the field enumeration used for table creation, row insertion and row
decoding is one and the same stable sequence, namely the declared fields in
declaration order with names beginning with an underscore excluded; the
column-declaration list the creation loop emits, the converted-value list the
insertion loop emits, and the names the decoding loop assigns all follow that
one sequence, so every field occupies the identical position in the CREATE
TABLE statement, the INSERT value list and the decoded row tuple. -/
theorem C1_field_enumeration_stable :
    (∀ decls : List (String × Field), createTableFields decls = saveFields decls)
    ∧ (∀ decls : List (String × Field), decodeFields decls = saveFields decls)
    ∧ (∀ decls : List (String × Field),
        saveFields decls = decls.filter (fun p => !(startsWithUnderscore p.1)))
    ∧ (∀ (decls : List (String × Field)) (selfVars : List (String × PyVal)),
        insertValues decls selfVars
          = omap (fun p => Option.bind (List.lookup p.1 selfVars) p.2.convert) (saveFields decls))
    ∧ (∀ (decls : List (String × Field)) (s : EngineState),
        (collectColsEnsuring decls s).1 = Option.none
        ∨ (collectColsEnsuring decls s).1
            = Option.some ((createTableFields decls).map (fun p => columnDeclaration p.1 p.2)))
    ∧ (∀ (decls : List (String × Field)) (s : EngineState) (vals : List PyVal),
        (decodeLoop decls s vals).1 = Option.none
        ∨ ∃ fs, (decodeLoop decls s vals).1 = Option.some fs
            ∧ fs.map Prod.fst = (decodeFields decls).map Prod.fst) :=
  ⟨createTableFields_eq_saveFields, decodeFields_eq_saveFields, saveFields_eq_filter,
   insertValues_eq_omap, collectColsEnsuring_cols, decodeLoop_names⟩

/-- C2: the source intends a precondition check at the top of
Connector.execute but the assert is written without call parentheses (compare
the call in disconnnect), so it asserts the truthy bound-method object and
never fires: with no active connection, is_connected is false yet the
asserted expression is true, and execution proceeds to dereference the absent
connection, failing with AttributeError instead of surfacing the
precondition violation immediately. -/
theorem C2_execute_assert_never_fires :
    is_connected ⟨Option.none, Option.none⟩ = false
    ∧ executeAssertExpr ⟨Option.none, Option.none⟩ = true
    ∧ executeEntry ⟨Option.none, Option.none⟩ = Except.error PyError.attributeError
    ∧ executeEntry ⟨Option.none, Option.none⟩ ≠ Except.error PyError.assertionError := by
  refine ⟨rfl, rfl, rfl, ?_⟩
  intro hcon
  exact PyError.noConfusion (Except.error.inj hcon)

/-- C3 (amended): the Text conversion wraps the value in single quotes
without escaping anything, so the produced literal correctly delimits the
string exactly when the string contains no single quote; interior single
quotes are NOT quoted and break the literal (see the counterexample). -/
theorem C3_text_quoting_amended (v : String) (h : ∀ c ∈ v.toList, c ≠ sqc) :
    Field.convert Field.StringField (PyVal.str v) = Option.some (PyVal.str (sq ++ v ++ sq))
    ∧ sqlLitParse ((sq ++ v ++ sq).toList) = Option.some v.toList := by
  constructor
  · rfl
  · have he : (sq ++ v ++ sq).toList = sqc :: (v.toList ++ [sqc]) := by simp [sq]
    rw [he]
    exact sqlLitParse_quoted v.toList h

/-- C3 witness: a quote-free string round-trips through the quoting and the
literal parse -/
theorem C3_text_quoting_amended_witness :
    Field.convert Field.StringField (PyVal.str "abc") = Option.some (PyVal.str (sq ++ "abc" ++ sq))
    ∧ sqlLitParse ((sq ++ "abc" ++ sq).toList) = Option.some "abc".toList :=
  C3_text_quoting_amended "abc" (by decide)

/-- C3 counterexample: for the string a-quote-b the conversion produces the
five-character literal quote-a-quote-b-quote, which does not parse as a
string literal delimiting the original value (the interior quote terminates
the literal early), refuting the claim that single quotes occurring inside
the value are quoted so that the literal correctly delimits it. -/
theorem C3_counterexample :
    Field.convert Field.StringField (PyVal.str ("a" ++ sq ++ "b"))
        = Option.some (PyVal.str (sq ++ ("a" ++ sq ++ "b") ++ sq))
    ∧ sqlLitParse ((sq ++ ("a" ++ sq ++ "b") ++ sq).toList) = Option.none
    ∧ Option.none ≠ Option.some ("a" ++ sq ++ "b").toList := by
  refine ⟨rfl, by decide, by decide⟩


/-- C4 (amended): with a non-empty filter mapping, query construction
synthesizes exactly SELECT rowid, star FROM name, then blank WHERE blank,
then the equality clauses in filter-iteration order, each clause being
key=value with the value produced by that field's conversion and the clauses
separated by AND — except that every clause carries one trailing blank, so
the synthesized statement ends in one trailing blank after the final value
(the sole deviation the counterexample forces); with an empty filter mapping
the statement is exactly the base selection; the statement is executed at
construction time (it is the one statement construction appends to the
trace, the store unchanged) and all matching rows are snapshotted then. -/
theorem C4_query_string_and_snapshot (cls : ModelClass)
    (filters cvs conds : List (String × PyVal)) (t : Table) (s : EngineState)
    (hne : filters.isEmpty = false)
    (hcv : omap (convFilter cls) filters = Option.some cvs)
    (ht : List.lookup cls.name s.db.tables = Option.some t)
    (hev : omap (fun q => Option.map (fun e => (q.1, e)) (sqlEvalLiteral q.2)) cvs
        = Option.some conds)
    (hcols : conds.all (fun c => t.cols.contains c.1) = true) :
    getQueryString cls filters
      = Option.some ("SELECT rowid, * FROM " ++ cls.name ++ " WHERE "
          ++ joinSep "AND " (cvs.map filterClauseText))
    ∧ getQueryString cls [] = Option.some ("SELECT rowid, * FROM " ++ cls.name)
    ∧ qsInitOp cls filters s
        = (Option.some ⟨cls, filters, t.rows.filter (rowMatches t.cols conds)⟩,
           ⟨s.db, s.trace ++ ["SELECT rowid, * FROM " ++ cls.name ++ " WHERE "
             ++ joinSep "AND " (cvs.map filterClauseText)]⟩) := by
  have hfc := filterClauses_some cls filters cvs hcv
  have hq : getQueryString cls filters
      = Option.some ("SELECT rowid, * FROM " ++ cls.name ++ " WHERE "
          ++ joinSep "AND " (cvs.map filterClauseText)) := by
    simp [getQueryString, hfc, hne, String.append_assoc]
  have hfused : omap (fun p => Option.bind (convFilter cls p)
      (fun q => Option.map (fun e => (q.1, e)) (sqlEvalLiteral q.2))) filters
      = Option.some conds := by
    rw [omap_bind_fusion (convFilter cls) _ filters cvs hcv, hev]
  have hsel : dbSelectFiltered cls filters s.db
      = Option.some (s.db, t.rows.filter (rowMatches t.cols conds)) := by
    simp only [dbSelectFiltered, ht, hfused, hcols, if_true]
  refine ⟨hq, ?_, ?_⟩
  · simp [getQueryString, filterClauses]
  · simp [qsInitOp, hq, runStmt, hsel]

/-- C4 witness: a one-field class, a one-pair filter and a one-row store -/
theorem C4_query_string_and_snapshot_witness :
    getQueryString (ModelClass.mk "T" [("x", Field.IntField)]) [("x", PyVal.int 1)]
      = Option.some ("SELECT rowid, * FROM " ++ (ModelClass.mk "T" [("x", Field.IntField)]).name
          ++ " WHERE " ++ joinSep "AND " ([(("x" : String), PyVal.int 1)].map filterClauseText))
    ∧ getQueryString (ModelClass.mk "T" [("x", Field.IntField)]) []
      = Option.some ("SELECT rowid, * FROM " ++ (ModelClass.mk "T" [("x", Field.IntField)]).name)
    ∧ qsInitOp (ModelClass.mk "T" [("x", Field.IntField)]) [("x", PyVal.int 1)]
        ⟨⟨[("T", ⟨["x"], 2, [(1, [PyVal.int 1])]⟩)]⟩, []⟩
      = (Option.some ⟨ModelClass.mk "T" [("x", Field.IntField)], [("x", PyVal.int 1)],
            (Table.mk ["x"] 2 [(1, [PyVal.int 1])]).rows.filter
              (rowMatches (Table.mk ["x"] 2 [(1, [PyVal.int 1])]).cols [("x", PyVal.int 1)])⟩,
         ⟨⟨[("T", ⟨["x"], 2, [(1, [PyVal.int 1])]⟩)]⟩,
          [] ++ ["SELECT rowid, * FROM " ++ (ModelClass.mk "T" [("x", Field.IntField)]).name
            ++ " WHERE " ++ joinSep "AND " ([(("x" : String), PyVal.int 1)].map filterClauseText)]⟩) :=
  C4_query_string_and_snapshot (ModelClass.mk "T" [("x", Field.IntField)])
    [("x", PyVal.int 1)] [("x", PyVal.int 1)] [("x", PyVal.int 1)]
    (Table.mk ["x"] 2 [(1, [PyVal.int 1])])
    ⟨⟨[("T", ⟨["x"], 2, [(1, [PyVal.int 1])]⟩)]⟩, []⟩
    rfl rfl rfl rfl rfl

/-- C4 counterexample: for a one-pair filter the synthesized statement
carries a trailing blank after the final value, so it is not exactly the text
the claim states (which ends at the value) -/
theorem C4_counterexample :
    getQueryString (ModelClass.mk "T" [("x", Field.IntField)]) [("x", PyVal.int 1)]
        = Option.some ("SELECT rowid, * FROM T WHERE x=1 ")
    ∧ getQueryString (ModelClass.mk "T" [("x", Field.IntField)]) [("x", PyVal.int 1)]
        ≠ Option.some ("SELECT rowid, * FROM T WHERE x=1") := by
  exact ⟨rfl, by decide⟩

/-- C8 (amended): indexing the snapshot follows Python list indexing: a
position k with zero le k lt count decodes exactly the row at position k; a
negative position with minus count le k lt zero decodes the row at position
count plus k (Python wrap-around, the deviation the counterexample forces);
every position outside minus count le k lt count fails with an out-of-bounds
IndexError, leaving the state untouched. -/
theorem C8_indexing_python_semantics (qs : QuerySet) (k : Int) (s : EngineState) :
    (pythonIndex k qs.items.length = Option.none → qsGetItem qs k s = (Option.none, s))
    ∧ (∀ j row, pythonIndex k qs.items.length = Option.some j →
        qs.items.get? j = Option.some row →
        qsGetItem qs k s = initFromDbTuple qs.model_cls s (PyVal.int row.1 :: row.2))
    ∧ (0 ≤ k → k < (qs.items.length : Int) →
        pythonIndex k qs.items.length = Option.some k.toNat)
    ∧ (-(qs.items.length : Int) ≤ k → k < 0 →
        pythonIndex k qs.items.length = Option.some ((qs.items.length : Int) + k).toNat)
    ∧ ((k < -(qs.items.length : Int) ∨ (qs.items.length : Int) ≤ k) →
        pythonIndex k qs.items.length = Option.none) := by
  refine ⟨?_, ?_, ?_, ?_, ?_⟩
  · intro h; simp [qsGetItem, h]
  · intro j row h1 h2
    rw [List.get?_eq_getElem?] at h2
    simp [qsGetItem, h1, h2]
  · intro h1 h2
    simp [pythonIndex, h1, h2]
  · intro h1 h2
    have hno : ¬(0 ≤ k ∧ k < (qs.items.length : Int)) := by omega
    simp only [pythonIndex, hno, if_false]
    have hyes : -(qs.items.length : Int) ≤ k ∧ k < 0 := ⟨h1, h2⟩
    simp [hyes]
  · intro h
    have hno : ¬(0 ≤ k ∧ k < (qs.items.length : Int)) := by omega
    have hno2 : ¬(-(qs.items.length : Int) ≤ k ∧ k < 0) := by omega
    simp [pythonIndex, hno, hno2]

/-- C8 counterexample: on a two-row snapshot, the out-of-range position minus
one does not fail: Python list indexing wraps around and decodes the last
row, refuting the claim that every position outside the snapshot's range
fails with an out-of-bounds error. -/
theorem C8_counterexample :
    (qsGetItem ⟨ModelClass.mk "T" [("x", Field.IntField)], [],
        [(1, [PyVal.int 7]), (2, [PyVal.int 8])]⟩ (-1) ⟨⟨[]⟩, []⟩).1
      = Option.some (PyVal.obj (PyVal.int 2) [("x", PyVal.int 8)]) := by
  simp [qsGetItem, pythonIndex, initFromDbTuple, decodeLoop.eq_def, Field.unconvert,
    ModelClass.decls, startsWithUnderscore]

/-- C9 (amended): a filter key that is not a declared attribute of the record
type fails the key lookup while the statement text is synthesized, before any
statement reaches the engine (the state, trace included, is returned
untouched).  The claim's phrase declared schema field name is wider than the
code checks: a declared but underscore-prefixed field descriptor is not a
schema field, yet its key passes the lookup and no key-lookup error is
raised (see the counterexample). -/
theorem C9_unknown_key_fails_before_execution (cls : ModelClass)
    (filters : List (String × PyVal)) (k : String) (v : PyVal) (s : EngineState)
    (hmem : (k, v) ∈ filters)
    (hlk : List.lookup k cls.decls = Option.none) :
    getQueryString cls filters = Option.none
    ∧ qsInitOp cls filters s = (Option.none, s) := by
  have hfc := filterClauses_none cls filters k v hmem hlk
  have hq : getQueryString cls filters = Option.none := by simp [getQueryString, hfc]
  exact ⟨hq, by simp [qsInitOp, hq]⟩

/-- C9 witness: filtering a one-int-field class on a key that is not declared -/
theorem C9_unknown_key_fails_before_execution_witness :
    getQueryString (ModelClass.mk "T" [("x", Field.IntField)]) [("y", PyVal.int 1)]
        = Option.none
    ∧ qsInitOp (ModelClass.mk "T" [("x", Field.IntField)]) [("y", PyVal.int 1)]
        ⟨⟨[]⟩, []⟩ = (Option.none, ⟨⟨[]⟩, []⟩) :=
  C9_unknown_key_fails_before_execution (ModelClass.mk "T" [("x", Field.IntField)])
    [("y", PyVal.int 1)] "y" (PyVal.int 1) ⟨⟨[]⟩, []⟩ (List.mem_singleton.mpr rfl) rfl

/-- C9 counterexample: an underscore-prefixed declared field descriptor is
excluded from the schema (saveFields drops it), yet using its name as a
filter key raises no key-lookup error: the statement is synthesized and is
executed (the trace grows by one statement), refuting the claim for keys
that are declared attributes without being schema field names. -/
theorem C9_counterexample :
    saveFields [("_x", Field.IntField)] = []
    ∧ getQueryString (ModelClass.mk "U" [("_x", Field.IntField)]) [("_x", PyVal.int 0)]
        = Option.some ("SELECT rowid, * FROM U WHERE _x=0 ")
    ∧ (qsInitOp (ModelClass.mk "U" [("_x", Field.IntField)]) [("_x", PyVal.int 0)]
        ⟨⟨[]⟩, []⟩).2.trace = ["SELECT rowid, * FROM U WHERE _x=0 "] := by
  exact ⟨rfl, rfl, rfl⟩



/-- C5: save with the identity attribute absent converts every schema field
in schema order (the conversion list is exactly the per-field conversion
mapped over the one schema enumeration), issues exactly INSERT INTO name
VALUES (v1, v2, ...) with the identity omitted, and stores the
engine-assigned identity (the table's next rowid, the cursor's lastrowid) on
the instance; save with the identity present issues exactly UPDATE name SET
f1=v1, f2=v2, ... WHERE rowid=identity, rewriting every schema field
unconditionally (the SET list covers the whole schema enumeration). -/
theorem C5_save_statements (cls : ModelClass) (selfVars : List (String × PyVal))
    (s : EngineState) (t : Table) (cvs evs : List PyVal)
    (ps evps : List (String × PyVal)) (i : Int)
    (ht : List.lookup cls.name s.db.tables = Option.some t)
    (hv : insertValues cls.decls selfVars = Option.some cvs)
    (hev : omap sqlEvalLiteral cvs = Option.some evs)
    (hlen : (evs.length == t.cols.length && !evs.isEmpty) = true)
    (hp : updatePairs cls.decls selfVars = Option.some ps)
    (hpev : omap (fun p => Option.map (fun e => (p.1, e)) (sqlEvalLiteral p.2)) ps
        = Option.some evps)
    (hcols : evps.all (fun p => t.cols.contains p.1) = true) :
    saveOp cls PyVal.none selfVars s
      = (Option.some (PyVal.int t.nextRowid),
         ⟨⟨replaceTable s.db.tables cls.name
             { t with rows := t.rows ++ [(t.nextRowid, evs)],
                      nextRowid := t.nextRowid + 1 }⟩,
          s.trace ++ [tableExistsSql cls.name, insertSqlText cls.name cvs]⟩)
    ∧ insertSqlText cls.name cvs
        = "INSERT INTO " ++ cls.name ++ " VALUES (" ++ joinSep ", " (cvs.map pyStr) ++ ")"
    ∧ insertValues cls.decls selfVars
        = omap (fun p => Option.bind (List.lookup p.1 selfVars) p.2.convert)
            (saveFields cls.decls)
    ∧ saveOp cls (PyVal.int i) selfVars s
      = (Option.some (PyVal.int i),
         ⟨⟨replaceTable s.db.tables cls.name
             { t with rows := t.rows.map (fun r =>
                 if r.1 = i then (r.1, applyAssigns t.cols r.2 evps) else r) }⟩,
          s.trace ++ [tableExistsSql cls.name, updateSqlText cls.name ps (PyVal.int i)]⟩)
    ∧ updateSqlText cls.name ps (PyVal.int i)
        = "UPDATE " ++ cls.name ++ " SET "
          ++ joinSep ", " (ps.map (fun p => p.1 ++ "=" ++ pyStr p.2))
          ++ " WHERE rowid=" ++ toString i
    ∧ ps.map Prod.fst = (saveFields cls.decls).map Prod.fst := by
  refine ⟨saveOp_insert_spec cls selfVars s t cvs evs ht hv hev hlen, rfl,
    insertValues_eq_omap cls.decls selfVars,
    saveOp_update_spec cls selfVars s t ps evps i ht hp hpev hcols, rfl, ?_⟩
  rw [updatePairs_eq_omap] at hp
  exact omap_keyed_fst (fun p => Option.bind (List.lookup p.1 selfVars) p.2.convert)
    (saveFields cls.decls) ps hp

/-- C5 witness: one int field, a fresh one-column table; the insert stores
the next rowid on the instance and the update rewrites the field -/
theorem C5_save_statements_witness :
    saveOp (ModelClass.mk "T" [("x", Field.IntField)]) PyVal.none [("x", PyVal.int 5)]
        ⟨⟨[("T", ⟨["x"], 1, []⟩)]⟩, []⟩
      = (Option.some (PyVal.int (Table.mk ["x"] 1 []).nextRowid),
         ⟨⟨replaceTable [("T", ⟨["x"], 1, []⟩)] "T"
             { Table.mk ["x"] 1 [] with
                 rows := (Table.mk ["x"] 1 []).rows
                   ++ [((Table.mk ["x"] 1 []).nextRowid, [PyVal.int 5])],
                 nextRowid := (Table.mk ["x"] 1 []).nextRowid + 1 }⟩,
          [] ++ [tableExistsSql "T", insertSqlText "T" [PyVal.int 5]]⟩) :=
  (C5_save_statements (ModelClass.mk "T" [("x", Field.IntField)]) [("x", PyVal.int 5)]
    ⟨⟨[("T", ⟨["x"], 1, []⟩)]⟩, []⟩ (Table.mk ["x"] 1 []) [PyVal.int 5] [PyVal.int 5]
    [("x", PyVal.int 5)] [("x", PyVal.int 5)] 1
    rfl rfl rfl rfl rfl rfl rfl).1

/-- C6: save on an instance whose identity is already present returns that
identity unchanged (the identity is mutated on first save only), and its
UPDATE leaves every other table untouched and, in the instance's own table,
leaves every row other than the one with the instance's rowid unchanged
(same columns, same next rowid, same membership of every other row). -/
theorem C6_update_identity_and_frame (cls : ModelClass)
    (selfVars : List (String × PyVal)) (s : EngineState) (t : Table)
    (ps evps : List (String × PyVal)) (i : Int)
    (ht : List.lookup cls.name s.db.tables = Option.some t)
    (hp : updatePairs cls.decls selfVars = Option.some ps)
    (hpev : omap (fun p => Option.map (fun e => (p.1, e)) (sqlEvalLiteral p.2)) ps
        = Option.some evps)
    (hcols : evps.all (fun p => t.cols.contains p.1) = true) :
    (saveOp cls (PyVal.int i) selfVars s).1 = Option.some (PyVal.int i)
    ∧ (∀ tn, tn ≠ cls.name →
        List.lookup tn (saveOp cls (PyVal.int i) selfVars s).2.db.tables
          = List.lookup tn s.db.tables)
    ∧ (∀ t2, List.lookup cls.name (saveOp cls (PyVal.int i) selfVars s).2.db.tables
          = Option.some t2 →
        t2.cols = t.cols ∧ t2.nextRowid = t.nextRowid
        ∧ ∀ rid vs, rid ≠ i → ((rid, vs) ∈ t2.rows ↔ (rid, vs) ∈ t.rows)) := by
  have hspec := saveOp_update_spec cls selfVars s t ps evps i ht hp hpev hcols
  rw [hspec]
  refine ⟨rfl, ?_, ?_⟩
  · intro tn hne
    exact lookup_replaceTable_ne s.db.tables cls.name tn _ hne
  · intro t2 h2
    rw [lookup_replaceTable_self s.db.tables cls.name t _ ht] at h2
    obtain rfl := Option.some.inj h2
    refine ⟨rfl, rfl, ?_⟩
    intro rid vs hne
    exact mem_update_rows t.rows i (fun r2 => applyAssigns t.cols r2 evps) rid vs hne

/-- C6 witness: a two-row table; updating the row with rowid one leaves the
row with rowid two where it was -/
theorem C6_update_identity_and_frame_witness :
    (saveOp (ModelClass.mk "T" [("x", Field.IntField)]) (PyVal.int 1) [("x", PyVal.int 9)]
        ⟨⟨[("T", ⟨["x"], 3, [(1, [PyVal.int 7]), (2, [PyVal.int 8])]⟩)]⟩, []⟩).1
      = Option.some (PyVal.int 1) :=
  (C6_update_identity_and_frame (ModelClass.mk "T" [("x", Field.IntField)])
    [("x", PyVal.int 9)]
    ⟨⟨[("T", ⟨["x"], 3, [(1, [PyVal.int 7]), (2, [PyVal.int 8])]⟩)]⟩, []⟩
    (Table.mk ["x"] 3 [(1, [PyVal.int 7]), (2, [PyVal.int 8])])
    [("x", PyVal.int 9)] [("x", PyVal.int 9)] 1 rfl rfl rfl rfl).1

/-- C10: delete neither checks nor clears the identity attribute.  With the
identity present, delete returns it unchanged, so a subsequent save of the
same instance takes the update branch: its trace appends the existence probe
and an UPDATE statement against the deleted row identifier (no INSERT), and
the deleted row is not re-created (no row with that rowid exists afterwards).
With the identity absent, delete still synthesizes the DELETE statement
rendering None into the rowid predicate and executes it (the statement
reaches the engine and joins the trace; the failure is the engine's, raised
only after execution, not a precondition violation). -/
theorem C10_delete_identity_untouched (cls : ModelClass)
    (selfVars : List (String × PyVal)) (s : EngineState) (t : Table)
    (ps evps : List (String × PyVal)) (i : Int)
    (ht : List.lookup cls.name s.db.tables = Option.some t)
    (hp : updatePairs cls.decls selfVars = Option.some ps)
    (hpev : omap (fun p => Option.map (fun e => (p.1, e)) (sqlEvalLiteral p.2)) ps
        = Option.some evps)
    (hcols : evps.all (fun p => t.cols.contains p.1) = true) :
    (deleteOp cls (PyVal.int i) s).1 = Option.some (PyVal.int i)
    ∧ (saveOp cls (PyVal.int i) selfVars (deleteOp cls (PyVal.int i) s).2).2.trace
        = (deleteOp cls (PyVal.int i) s).2.trace
          ++ [tableExistsSql cls.name, updateSqlText cls.name ps (PyVal.int i)]
    ∧ (∀ t2, List.lookup cls.name
          (saveOp cls (PyVal.int i) selfVars (deleteOp cls (PyVal.int i) s).2).2.db.tables
          = Option.some t2 → ∀ vs, ¬ (i, vs) ∈ t2.rows)
    ∧ deleteSqlText cls.name PyVal.none
        = "DELETE FROM " ++ cls.name ++ " WHERE rowid=None"
    ∧ (deleteOp cls PyVal.none s).2.trace
        = s.trace ++ [tableExistsSql cls.name, deleteSqlText cls.name PyVal.none]
    ∧ (deleteOp cls PyVal.none s).1 = Option.none := by
  have hdel := deleteOp_int_spec cls s t i ht
  have hdnone := deleteOp_none_spec cls s t ht
  set t2 : Table := { t with rows := t.rows.filter (fun r => r.1 != i) } with ht2
  have ht' : List.lookup cls.name (deleteOp cls (PyVal.int i) s).2.db.tables
      = Option.some t2 := by
    rw [hdel]
    exact lookup_replaceTable_self s.db.tables cls.name t t2 ht
  have hcols2 : evps.all (fun p => t2.cols.contains p.1) = true := hcols
  have hupd := saveOp_update_spec cls selfVars (deleteOp cls (PyVal.int i) s).2 t2
    ps evps i ht' hp hpev hcols2
  have hdsql : deleteSqlText cls.name PyVal.none
      = "DELETE FROM " ++ cls.name ++ " WHERE rowid=None" := by
    simp only [deleteSqlText, pyStr]
    rw [String.append_assoc]
    rfl
  refine ⟨by rw [hdel], ?_, ?_, hdsql, by rw [hdnone], by rw [hdnone]⟩
  · rw [hupd]
  · intro t3 h3 vs
    rw [hupd] at h3
    simp only at h3
    rw [lookup_replaceTable_self _ cls.name t2 _ ht'] at h3
    obtain rfl := Option.some.inj h3
    exact no_deleted_row_after_update t.rows i (fun r2 => applyAssigns t2.cols r2 evps) vs

/-- C10 witness: after deleting the row with rowid one, saving the same
instance again runs the probe and an UPDATE, not an INSERT -/
theorem C10_delete_identity_untouched_witness :
    (deleteOp (ModelClass.mk "T" [("x", Field.IntField)]) (PyVal.int 1)
        ⟨⟨[("T", ⟨["x"], 2, [(1, [PyVal.int 7])]⟩)]⟩, []⟩).1
      = Option.some (PyVal.int 1) :=
  (C10_delete_identity_untouched (ModelClass.mk "T" [("x", Field.IntField)])
    [("x", PyVal.int 9)]
    ⟨⟨[("T", ⟨["x"], 2, [(1, [PyVal.int 7])]⟩)]⟩, []⟩
    (Table.mk ["x"] 2 [(1, [PyVal.int 7])])
    [("x", PyVal.int 9)] [("x", PyVal.int 9)] 1 rfl rfl rfl rfl).1



/-- C7: decoding a row tuple (identity, field values ... in schema order)
produces an instance whose identity attribute is exactly the leading tuple
element (first conjunct, any schema); for a schema without Reference fields
the decoded fields are exactly the positional values passed through each
field's fromStorage, pairing the i-th schema field with the i-th value and
executing nothing (second conjunct); and for each Reference field the loader
issues the single-row selection against the target table with the positional
raw value as the rowid comparand and recursively materializes one target
instance from the fetched row (third conjunct). -/
theorem C7_decode_positional_and_references :
    (∀ (cls : ModelClass) (s : EngineState) (rowid : PyVal) (vals : List PyVal),
      (initFromDbTuple cls s (rowid :: vals)).1 = Option.none
      ∨ ∃ fs, (initFromDbTuple cls s (rowid :: vals)).1 = Option.some (PyVal.obj rowid fs))
    ∧ (∀ (decls : List (String × Field)) (s : EngineState) (vals : List PyVal),
      (∀ p ∈ decls, ∀ other, p.2 ≠ Field.ForeignKeyField other) →
      (decodeFields decls).length ≤ vals.length →
      decodeLoop decls s vals
        = (Option.some (List.zipWith (fun p v => (p.1, Field.unconvert p.2 v))
            (decodeFields decls) vals), s))
    ∧ (∀ (other : ModelClass) (j : Int) (s : EngineState) (t : Table)
        (row : Int × List PyVal),
      List.lookup other.name s.db.tables = Option.some t →
      (t.rows.filter (fun r => r.1 == j)).head? = Option.some row →
      loadFkFieldOp other (PyVal.int j) s
        = initFromDbTuple other
            ⟨s.db, s.trace ++ ["SELECT rowid, * FROM " ++ other.name
              ++ " WHERE rowid=" ++ pyStr (PyVal.int j) ++ " LIMIT 1"]⟩
            (PyVal.int row.1 :: row.2)) := by
  refine ⟨?_, ?_, ?_⟩
  · intro cls s rowid vals
    obtain ⟨nm, decls⟩ := cls
    rcases hd : decodeLoop decls s vals with ⟨r, s1⟩
    cases r with
    | none => left; simp [initFromDbTuple, hd]
    | some fs => right; exact ⟨fs, by simp [initFromDbTuple, hd]⟩
  · intro decls
    induction decls with
    | nil =>
      intro s vals _ _
      simp [decodeLoop, decodeFields]
    | cons p rest ih =>
      intro s vals hnofk hlen
      obtain ⟨n, f⟩ := p
      rw [decodeLoop.eq_def]
      by_cases h : startsWithUnderscore n
      · have ih2 := ih s vals (fun q hq => hnofk q (List.mem_cons_of_mem _ hq))
        simp only [decodeFields, h, ite_true] at hlen ⊢
        exact ih2 hlen
      · simp only [decodeFields, h, Bool.false_eq_true, ite_false] at hlen ⊢
        cases vals with
        | nil => simp at hlen
        | cons v vrest =>
          have hlen2 : (decodeFields rest).length ≤ vrest.length := by
            simpa using hlen
          have ih2 := ih s vrest (fun q hq => hnofk q (List.mem_cons_of_mem _ hq)) hlen2
          rcases f with _ | _ | _ | _ | other
          rotate_left 4
          · exact absurd rfl (hnofk (n, Field.ForeignKeyField other) (List.mem_cons_self _ _) other)
          all_goals simp [ih2, decodeFields, h]
  · intro other j s t row ht hrow
    have hsel : dbSelectRowid other.name (PyVal.int j) s.db
        = Option.some (s.db, t.rows.filter (fun r => r.1 == j)) := by
      simp [dbSelectRowid, ht]
    simp [loadFkFieldOp, runStmt, hsel, hrow]


end PyORM
